import Mathlib

/-!
Verification of the EchoPilot audio streaming backend
(`backend/websockets/audio_handler.py`, `backend/services/transcription.py`)
against its natural-language specification.

The Python code is shallowly embedded: pure helpers become Lean functions on
`String` / `List Char`; the stateful WebSocket handlers become explicit
state-passing functions from a `SessionState` to a new state plus an ordered
trace of observable events (client emissions, external-collaborator calls,
database writes, log lines); external collaborators (the whisper model, the
LLM answer generator, the WebSocket send, audio normalization) are oracle
fields of an `Externals` record; Python exceptions become `Except String`.
Machine integers are `Nat`; byte strings are `List Nat`; Python floats in the
confidence computation are modelled as `ℚ` (the computation is only +, /, min,
max on small values, where float and exact arithmetic agree on the properties
claimed).  The interleaved-invocation behaviour of `process_audio_buffer` is
additionally modelled as a small-step transition system (`PStep`) whose atomic
steps are the runs between `await` points of the Python coroutine, as asyncio
schedules them.
-/

/-! ## Python string helpers (embedding `str.strip`, `str.split`, `str.lower`) -/

/-- Embeds Python whitespace (`str.split()` / `str.strip()` default set):
space, tab, newline, carriage return, vertical tab, form feed. -/
def pyIsSpace (c : Char) : Bool :=
  c.toNat = 32 || c.toNat = 9 || c.toNat = 10 || c.toNat = 13 || c.toNat = 11 || c.toNat = 12

/-- Embeds Python `str.lower()` restricted to ASCII letters (the question
starter words compared against are all ASCII). -/
def pyToLower (c : Char) : Char :=
  if 65 ≤ c.toNat ∧ c.toNat ≤ 90 then Char.ofNat (c.toNat + 32) else c

/-- Embeds Python `str.strip()` on a character list: drop whitespace from both
ends. -/
def pyStripL (l : List Char) : List Char :=
  ((l.dropWhile pyIsSpace).reverse.dropWhile pyIsSpace).reverse

/-- Embeds Python `str.strip()` on `String`. -/
def pyStripS (s : String) : String :=
  String.mk (pyStripL s.toList)

/-- Worker for `pyWords`: accumulates the current word (reversed) while
scanning.  Mirrors Python `str.split()` with no separator: split on runs of
whitespace, no empty words. -/
def wordsAux : List Char → List Char → List (List Char)
  | [], acc => if acc.isEmpty then [] else [acc.reverse]
  | c :: cs, acc =>
    if pyIsSpace c then
      if acc.isEmpty then wordsAux cs [] else acc.reverse :: wordsAux cs []
    else wordsAux cs (c :: acc)

/-- Embeds Python `text.split()` (whitespace-separated words). -/
def pyWords (l : List Char) : List (List Char) :=
  wordsAux l []

/-- Embeds Python `text.endswith("?")`. -/
def endsWithQmark (t : List Char) : Bool :=
  match t.getLast? with
  | some c => c = '?'
  | none => false

/-! ## Question-Boundary Detector (`is_complete_question`) -/

/-- The fixed `question_starters` list from `audio_handler.py`. -/
def question_starters : List (List Char) :=
  ["what".toList, "how".toList, "why".toList, "tell".toList, "describe".toList,
   "explain".toList, "can".toList, "could".toList, "would".toList, "do".toList,
   "does".toList, "have".toList, "where".toList, "when".toList]

/-- Embeds `is_complete_question` from `audio_handler.py`:
strip; empty gives false; trailing question mark gives true; otherwise at
least 10 words whose first word (of the lowercased text) is a question
starter gives true; otherwise false. -/
def is_complete_question (text : String) : Bool :=
  let t := pyStripL text.toList
  if t.isEmpty then false
  else if endsWithQmark t then true
  else if 10 ≤ (pyWords t).length then
    question_starters.contains ((pyWords (t.map pyToLower)).headD [])
  else false

/-- Follows the words of the specification of the boundary detector (spec
section 4.1 and claim C5): the stripped text ending in a question mark gives
true; fewer than 10 words gives false; otherwise membership of the first
word, lowercased, in the starter set decides.  To be compared with
`is_complete_question`, which is translated from the code. -/
def isCompleteQuestionSpec (text : String) : Bool :=
  let t := pyStripL text.toList
  if endsWithQmark t then true
  else if (pyWords t).length < 10 then false
  else if question_starters.contains (((pyWords t).headD []).map pyToLower) then true
  else false

/-! Lemmas relating lowering and word splitting. -/

theorem pyIsSpace_pyToLower (c : Char) : pyIsSpace (pyToLower c) = pyIsSpace c := by
  unfold pyToLower
  split
  · rename_i h
    have hvalid : (c.toNat + 32).isValidChar := Or.inl (by omega)
    have hv : (Char.ofNat (c.toNat + 32)).toNat = c.toNat + 32 := by
      unfold Char.ofNat
      rw [dif_pos hvalid]
      rfl
    unfold pyIsSpace
    rw [hv, Bool.eq_iff_iff]
    simp only [Bool.or_eq_true, decide_eq_true_eq]
    constructor <;> (intro h3; omega)
  · rfl

theorem wordsAux_map_pyToLower (l : List Char) : ∀ acc,
    wordsAux (l.map pyToLower) (acc.map pyToLower) =
      (wordsAux l acc).map (List.map pyToLower) := by
  induction l with
  | nil =>
    intro acc
    cases acc with
    | nil => simp [wordsAux]
    | cons a as => simp [wordsAux]
  | cons c cs ih =>
    intro acc
    simp only [List.map_cons, wordsAux, pyIsSpace_pyToLower]
    by_cases hs : pyIsSpace c
    · cases acc with
      | nil => simpa [hs] using ih []
      | cons a as =>
        simp only [hs, if_true, List.map_cons, List.isEmpty_cons, if_false,
          Bool.false_eq_true, ← List.map_cons, ← List.map_reverse]
        exact congrArg (List.cons ((a :: as).reverse.map pyToLower)) (ih [])
    · simp only [hs, if_false, Bool.false_eq_true]
      exact ih (c :: acc)

theorem pyWords_map_pyToLower (l : List Char) :
    pyWords (l.map pyToLower) = (pyWords l).map (List.map pyToLower) := by
  simpa using wordsAux_map_pyToLower l []

/-- C5: `is_complete_question` agrees with the predicate described by the
specification on every input. -/
theorem is_complete_question_spec_eq (text : String) :
    is_complete_question text = isCompleteQuestionSpec text := by
  unfold is_complete_question isCompleteQuestionSpec
  set t := pyStripL text.toList with ht
  by_cases hE : t.isEmpty
  · have h' : t = [] := List.isEmpty_iff.mp hE
    simp [hE, h', endsWithQmark, pyWords, wordsAux]
  · simp only [hE, if_false, Bool.false_eq_true]
    by_cases hq : endsWithQmark t
    · simp [hq]
    · simp only [hq, if_false, Bool.false_eq_true]
      by_cases hw : 10 ≤ (pyWords t).length
      · have hw' : ¬ (pyWords t).length < 10 := by omega
        simp only [hw, if_true, hw', if_false]
        rw [pyWords_map_pyToLower]
        have hhead : ((pyWords t).map (List.map pyToLower)).headD [] =
            ((pyWords t).headD []).map pyToLower := by
          cases pyWords t <;> simp
        rw [hhead]
        split <;> simp_all
      · have hw' : (pyWords t).length < 10 := by omega
        simp [hw, hw']

/-! ## Data model: session state, observable events, external collaborators -/

/-- Embeds the mutable fields of `InterviewSession` that the handlers touch
(the WebSocket handle is implicit in the event trace). -/
structure SessionState where
  db_session_id : Option Nat
  audio_buffer : List Nat
  transcription_buffer : String
  last_question : String
  is_processing : Bool
  deriving DecidableEq

/-- Observable events of a handler run, in order: messages sent to the client,
external-collaborator calls, database writes, and log lines. -/
inductive Event where
  | statusEvt (status : String) (message : Option String)
  | transcriptionEvt (text : String) (full_text : Option String) (is_final : Bool)
      (confidence : Option ℚ)
  | aiResponseEvt (question : String) (text : String) (key_points : List String)
      (is_complete : Bool)
  | errorEvt (message : String)
  | transcribeCall (data : List Nat)
  | transcribeReturn (text : String) (confidence : ℚ)
  | modelInvoke (nsamples : Nat)
  | answerPipeline (question : String)
  | generateCall (question : String) (cv : Option String)
  | addQA (session_id : Nat) (question : String) (answer : String)
      (key_points : List String)
  | endSessionDb (session_id : Nat)
  | logError (msg : String)
  deriving DecidableEq

/-- Oracles for the external collaborators.  `transcribeModel` is the
faster-whisper inference (`self.model.transcribe` plus segment iteration):
it yields the list of `(segment.text, segment.avg_logprob)` pairs, or an
exception that `_transcribe_sync` catches.  `generateAnswer` is
`ai_generator.generate_answer` (answer, key points, or a raised exception).
`cvSummary` is `cv_context_manager.get_context(...)["summary"]`.
`emitFail` says whether `websocket.send_json` raises on a given payload.
`normalize` is `convert_webm_to_pcm`. -/
structure Externals where
  transcribeModel : List Nat → Except String (List (String × ℚ))
  generateAnswer : String → Option String → Except String (String × List String)
  cvSummary : Option String
  emitFail : Event → Bool
  normalize : List Nat → Option (List Nat)

/-- Embeds `InterviewSession.send_message` (`websocket.send_json`): on
success the event is delivered, otherwise the send raises. -/
def send_message (ex : Externals) (e : Event) : List Event × Except String Unit :=
  if ex.emitFail e then ([], .error "send failed") else ([e], .ok ())

/-! ## Transcription service (`backend/services/transcription.py`) -/

/-- Embeds `TranscriptionService._transcribe_sync`: a raised model exception
is caught and degraded to `("", 0.0)`; otherwise the segment texts are
stripped and joined with spaces, and the average log probability is clamped
into a confidence in `[0, 1]` by `min(1.0, max(0.0, (avg + 1) / 1))`. -/
def transcribe_sync (r : Except String (List (String × ℚ))) : String × ℚ :=
  match r with
  | .error _ => ("", 0)
  | .ok segments =>
    let text_parts := segments.map (fun seg => pyStripS seg.1)
    let full_text := String.intercalate " " text_parts
    let segment_count := segments.length
    let total_confidence := (segments.map Prod.snd).sum
    let avg_confidence : ℚ :=
      if segment_count > 0 then total_confidence / segment_count else 0
    let confidence := min 1 (max 0 ((avg_confidence + 1) / 1))
    (full_text, confidence)

/-- Embeds `TranscriptionService.transcribe`: input shorter than 1000 bytes
returns `("", 0.0)` without touching the model; otherwise the bytes are
reinterpreted as 16-bit samples (`np.frombuffer` raises on an odd byte
count, the one exception this method can propagate) and `_transcribe_sync`
runs on the executor.  The trace records entering the service
(`transcribeCall`), entering the model (`modelInvoke`) and the value the
service returns (`transcribeReturn`). -/
def transcribe (ex : Externals) (audio_data : List Nat) :
    List Event × Except String (String × ℚ) :=
  if audio_data.length < 1000 then
    ([.transcribeCall audio_data, .transcribeReturn "" 0], .ok ("", 0))
  else if audio_data.length % 2 ≠ 0 then
    ([.transcribeCall audio_data],
     .error "frombuffer: buffer size must be a multiple of element size")
  else
    let tc := transcribe_sync (ex.transcribeModel audio_data)
    ([.transcribeCall audio_data, .modelInvoke (audio_data.length / 2),
      .transcribeReturn tc.1 tc.2], .ok tc)

/-! ## Answer Pipeline (`generate_and_send_answer`) -/

/-- Body of `generate_and_send_answer`; the leading `answerPipeline` marker
is added by the wrapper below.  Mirrors the source: send a `generating`
status (outside the `try`, so a send failure propagates), resolve the CV
summary, call `ai_generator.generate_answer` inside `try`; on success send
`ai_response` and, when a persisted session id is set (Python truthiness:
not `None` and nonzero), `add_qa`, then record `last_question`; on an
exception (from the generator call or from the `ai_response` send) log and
`send_error`, persisting nothing. -/
def generate_and_send_core (ex : Externals) (s : SessionState) (question : String) :
    SessionState × List Event × Except String Unit :=
  match send_message ex (.statusEvt "generating" (some "Generating answer...")) with
  | (ev0, .error e) => (s, ev0, .error e)
  | (ev0, .ok _) =>
    let cv_text := ex.cvSummary
    match ex.generateAnswer question cv_text with
    | .error e =>
      let lg := Event.logError ("Error generating answer: " ++ e)
      match send_message ex (.errorEvt ("Failed to generate answer: " ++ e)) with
      | (ev1, .error e2) =>
        (s, ev0 ++ [.generateCall question cv_text, lg] ++ ev1, .error e2)
      | (ev1, .ok _) =>
        (s, ev0 ++ [.generateCall question cv_text, lg] ++ ev1, .ok ())
    | .ok (answer, key_points) =>
      match send_message ex (.aiResponseEvt question answer key_points true) with
      | (ev1, .error e) =>
        let lg := Event.logError ("Error generating answer: " ++ e)
        match send_message ex (.errorEvt ("Failed to generate answer: " ++ e)) with
        | (ev2, .error e2) =>
          (s, ev0 ++ [.generateCall question cv_text] ++ ev1 ++ [lg] ++ ev2, .error e2)
        | (ev2, .ok _) =>
          (s, ev0 ++ [.generateCall question cv_text] ++ ev1 ++ [lg] ++ ev2, .ok ())
      | (ev1, .ok _) =>
        let evQA :=
          match s.db_session_id with
          | some sid => if sid = 0 then [] else [Event.addQA sid question answer key_points]
          | none => []
        ({ s with last_question := question },
         ev0 ++ [.generateCall question cv_text] ++ ev1 ++ evQA, .ok ())

/-- Embeds `generate_and_send_answer`; the `answerPipeline` event marks the
invocation of the Answer Pipeline with its `question` argument. -/
def generate_and_send_answer (ex : Externals) (s : SessionState) (question : String) :
    SessionState × List Event × Except String Unit :=
  match generate_and_send_core ex s question with
  | (s', tr, r) => (s', .answerPipeline question :: tr, r)

/-! ## Transcription Pipeline (`process_audio_buffer`) -/

/-- Embeds `process_audio_buffer`.  The `async with processing_lock` block
atomically checks `is_processing` (returning at once when set) and sets it.
Then, inside `try`: drain the accumulator, call the transcription service,
and on non-empty stripped text append to `transcription_buffer` (with a
space, then strip) and send a non-final `transcription` event; when
`is_complete_question` fires on the updated buffer, capture it, clear the
buffer, send the final `transcription` event, and run the Answer Pipeline.
Every exception (`except Exception`) is logged and swallowed, and the flag
is reset in `finally` on each path that set it. -/
def process_audio_buffer (ex : Externals) (s : SessionState) :
    SessionState × List Event :=
  if s.is_processing then (s, [])
  else
    let s1 : SessionState := { s with is_processing := true }
    let audio_data := s1.audio_buffer
    let s2 : SessionState := { s1 with audio_buffer := [] }
    match transcribe ex audio_data with
    | (tev, .error e) =>
      ({ s2 with is_processing := false },
       tev ++ [.logError ("Error processing audio: " ++ e)])
    | (tev, .ok (text, confidence)) =>
      if pyStripS text ≠ "" then
        let tb := pyStripS (s2.transcription_buffer ++ " " ++ text)
        let s3 : SessionState := { s2 with transcription_buffer := tb }
        match send_message ex (.transcriptionEvt text (some tb) false (some confidence)) with
        | (ev1, .error e) =>
          ({ s3 with is_processing := false },
           tev ++ ev1 ++ [.logError ("Error processing audio: " ++ e)])
        | (ev1, .ok _) =>
          if is_complete_question tb then
            let question := tb
            let s4 : SessionState := { s3 with transcription_buffer := "" }
            match send_message ex (.transcriptionEvt question none true none) with
            | (ev2, .error e) =>
              ({ s4 with is_processing := false },
               tev ++ ev1 ++ ev2 ++ [.logError ("Error processing audio: " ++ e)])
            | (ev2, .ok _) =>
              match generate_and_send_answer ex s4 question with
              | (s5, ev3, .error e) =>
                ({ s5 with is_processing := false },
                 tev ++ ev1 ++ ev2 ++ ev3 ++ [.logError ("Error processing audio: " ++ e)])
              | (s5, ev3, .ok _) =>
                ({ s5 with is_processing := false }, tev ++ ev1 ++ ev2 ++ ev3)
          else ({ s3 with is_processing := false }, tev ++ ev1)
      else ({ s2 with is_processing := false }, tev)

/-! ## Protocol handlers (`handle_audio_chunk`, `handle_end_session`) -/

/-- An `audio_chunk` message after base64 decoding; `none` models a missing
or falsy `data` field (the handler returns at once on those). -/
structure AudioChunkMsg where
  data : Option (List Nat)

/-- Embeds `handle_audio_chunk`: decode (already done in `AudioChunkMsg`),
normalize via `convert_webm_to_pcm` falling back to the raw bytes when the
result is falsy (`None` or empty), extend the accumulator, and when it has
reached 64000 bytes invoke — and await — `process_audio_buffer`. -/
def handle_audio_chunk (ex : Externals) (s : SessionState) (msg : AudioChunkMsg) :
    SessionState × List Event :=
  match msg.data with
  | none => (s, [])
  | some audio_bytes =>
    let chunk :=
      match ex.normalize audio_bytes with
      | some l => if l.isEmpty then audio_bytes else l
      | none => audio_bytes
    let s1 : SessionState := { s with audio_buffer := s.audio_buffer ++ chunk }
    if 64000 ≤ s1.audio_buffer.length then process_audio_buffer ex s1
    else (s1, [])

/-- Embeds `handle_end_session`: when more than 1000 buffered bytes remain,
await one `process_audio_buffer` pass; then, when `db_session_id` is truthy,
call the persistence `end_session` and send a status event (a send failure
here propagates, skipping the final clearing); finally clear
`db_session_id`. -/
def handle_end_session (ex : Externals) (s : SessionState) :
    SessionState × List Event × Except String Unit :=
  let p :=
    if 1000 < s.audio_buffer.length then process_audio_buffer ex s
    else (s, [])
  let s1 := p.1
  let ev1 := p.2
  match s1.db_session_id with
  | some sid =>
    if sid = 0 then ({ s1 with db_session_id := none }, ev1, .ok ())
    else
      match send_message ex
          (.statusEvt "session_ended" (some ("Session " ++ toString sid ++ " ended"))) with
      | (ev2, .error e) => (s1, ev1 ++ [.endSessionDb sid] ++ ev2, .error e)
      | (ev2, .ok _) =>
        ({ s1 with db_session_id := none }, ev1 ++ [.endSessionDb sid] ++ ev2, .ok ())
  | none => ({ s1 with db_session_id := none }, ev1, .ok ())

/-! ## Interleaving model of `process_audio_buffer` invocations

Under asyncio, the per-connection coroutines interleave only at `await`
points, and code between two `await`s runs atomically.  `PState` abstracts a
session during any number of interleaved `process_audio_buffer` invocations:
`flag` is `is_processing`, `buf` the accumulator length, and the invocation
counts give how many invocations currently sit at each stage: before the
locked check-and-set (`nEntry`), inside the awaited external `transcribe`
call (`nTrans`), past it but before the `finally` (`nPost`).  `PStep` has
one transition per atomic run of the source: appending a chunk, a new
invocation arriving, the locked check-and-set (which on a clear flag also
drains the buffer and enters `transcribe`, with no `await` in between; on a
set flag the invocation returns at once, draining nothing and never calling
`transcribe`), `transcribe` returning, and the `finally` that resets the
flag.  This is deliberately more liberal than the source (invocations may
arrive at any time, regardless of the threshold), so an invariant proved for
all reachable `PState`s covers the real scheduling. -/

structure PState where
  flag : Bool
  buf : Nat
  nEntry : Nat
  nTrans : Nat
  nPost : Nat
  deriving DecidableEq

/-- The atomic transitions of interleaved `process_audio_buffer` runs. -/
inductive PStep : PState → PState → Prop where
  | append (s : PState) (n : Nat) :
      PStep s { s with buf := s.buf + n }
  | arrive (s : PState) :
      PStep s { s with nEntry := s.nEntry + 1 }
  | enter (s : PState) (h : 0 < s.nEntry) (hf : s.flag = false) :
      PStep s { flag := true, buf := 0, nEntry := s.nEntry - 1,
                nTrans := s.nTrans + 1, nPost := s.nPost }
  | skip (s : PState) (h : 0 < s.nEntry) (hf : s.flag = true) :
      PStep s { s with nEntry := s.nEntry - 1 }
  | transcribeDone (s : PState) (h : 0 < s.nTrans) :
      PStep s { s with nTrans := s.nTrans - 1, nPost := s.nPost + 1 }
  | finallyReset (s : PState) (h : 0 < s.nPost) :
      PStep s { s with nPost := s.nPost - 1, flag := false }

/-- The quiescent session: flag clear, empty accumulator, no invocations. -/
def PState.init : PState := ⟨false, 0, 0, 0, 0⟩

/-- States a session can reach under any interleaving of chunk arrivals and
`process_audio_buffer` invocations. -/
def PReachable (s : PState) : Prop :=
  Relation.ReflTransGen PStep PState.init s

/-- The lock/flag discipline ties the flag to the number of invocations that
are past the check-and-set but before the `finally`. -/
def PInv (s : PState) : Prop :=
  s.nTrans + s.nPost = (if s.flag then 1 else 0)

theorem pstep_preserves {a b : PState} (hab : PStep a b) (ha : PInv a) : PInv b := by
  unfold PInv at *
  cases hab <;> rcases hfl : a.flag <;> simp_all <;> omega

theorem pstep_invariant {s : PState} (hr : PReachable s) : PInv s := by
  induction hr with
  | refl => unfold PInv; simp [PState.init]
  | tail _ hstep ih => exact pstep_preserves hstep ih

/-! ## Trace classification helpers -/

def isTranscribeCall : Event → Bool
  | .transcribeCall _ => true
  | _ => false

def isTranscribeRet : Event → Bool
  | .transcribeReturn _ _ => true
  | _ => false

def isEndSessionDb : Event → Bool
  | .endSessionDb _ => true
  | _ => false

def isAddQA : Event → Bool
  | .addQA _ _ _ _ => true
  | _ => false

/-- Number of entries into the transcription service in a trace. -/
def transcribeCalls (tr : List Event) : Nat :=
  tr.countP isTranscribeCall

/-- Shared concrete externals for witnesses: an empty-segment model, a
trivially succeeding generator, no CV, reliable sends, identity
normalization. -/
def ex0 : Externals where
  transcribeModel := fun _ => .ok []
  generateAnswer := fun _ _ => .ok ("", [])
  cvSummary := none
  emitFail := fun _ => false
  normalize := fun b => some b

/-! ## Helper lemmas on the embedded pipeline -/

/-- With reliable sends, a successful generator call makes
`generate_and_send_answer` emit exactly status, generator call, `ai_response`
and, for a truthy persisted id, the `add_qa` write, in this order, and only
set `last_question`. -/
theorem gss_ok_eq (ex : Externals) (s : SessionState) (q ans : String)
    (kps : List String) (hemit : ∀ e, ex.emitFail e = false)
    (hg : ex.generateAnswer q ex.cvSummary = .ok (ans, kps)) :
    generate_and_send_answer ex s q =
      ({ s with last_question := q },
       [.answerPipeline q, .statusEvt "generating" (some "Generating answer..."),
        .generateCall q ex.cvSummary, .aiResponseEvt q ans kps true] ++
         (match s.db_session_id with
          | some sid => if sid = 0 then [] else [Event.addQA sid q ans kps]
          | none => []),
       .ok ()) := by
  unfold generate_and_send_answer generate_and_send_core send_message
  simp only [hemit, if_false, Bool.false_eq_true, hg]
  rcases s.db_session_id with _ | sid <;> simp

/-- With reliable sends, a raised generator call makes
`generate_and_send_answer` log, emit an `error` event, persist nothing and
leave the state unchanged. -/
theorem gss_err_eq (ex : Externals) (s : SessionState) (q e1 : String)
    (hemit : ∀ e, ex.emitFail e = false)
    (hg : ex.generateAnswer q ex.cvSummary = .error e1) :
    generate_and_send_answer ex s q =
      (s,
       [.answerPipeline q, .statusEvt "generating" (some "Generating answer..."),
        .generateCall q ex.cvSummary, .logError ("Error generating answer: " ++ e1),
        .errorEvt ("Failed to generate answer: " ++ e1)],
       .ok ()) := by
  unfold generate_and_send_answer generate_and_send_core send_message
  simp only [hemit, if_false, Bool.false_eq_true, hg]
  rfl

/-- `process_audio_buffer` entered with the flag clear leaves the flag
clear on every one of its exits. -/
theorem process_flag_clear (ex : Externals) (s : SessionState)
    (hp : s.is_processing = false) :
    (process_audio_buffer ex s).1.is_processing = false := by
  unfold process_audio_buffer
  rw [if_neg (by simp [hp])]
  dsimp only
  repeat' split
  all_goals rfl

/-- `process_audio_buffer` entered with the flag set returns at once,
changing nothing and emitting nothing. -/
theorem process_busy_skip (ex : Externals) (s : SessionState)
    (hp : s.is_processing = true) :
    process_audio_buffer ex s = (s, []) := by
  unfold process_audio_buffer
  rw [if_pos (by simp [hp])]

/-- The trace of a non-skipped `process_audio_buffer` run begins with the
trace of the transcription service applied to the drained buffer. -/
theorem process_trace_prefix (ex : Externals) (s : SessionState)
    (hp : s.is_processing = false) :
    (transcribe ex s.audio_buffer).1 <+: (process_audio_buffer ex s).2 := by
  unfold process_audio_buffer
  rw [if_neg (by simp [hp])]
  dsimp only
  repeat' split
  all_goals simp_all [List.prefix_append]

/-- The transcription service records exactly one `transcribeCall` per run. -/
theorem transcribe_trace_calls (ex : Externals) (d : List Nat) :
    transcribeCalls (transcribe ex d).1 = 1 := by
  unfold transcribe
  repeat' split
  all_goals simp [transcribeCalls, isTranscribeCall]

/-- On a long, even-length input the service enters the model and returns
the `_transcribe_sync` result. -/
theorem transcribe_long (ex : Externals) (d : List Nat)
    (hlen : ¬ d.length < 1000) (heven : d.length % 2 = 0) :
    transcribe ex d =
      ([.transcribeCall d, .modelInvoke (d.length / 2),
        .transcribeReturn (transcribe_sync (ex.transcribeModel d)).1
          (transcribe_sync (ex.transcribeModel d)).2],
       .ok (transcribe_sync (ex.transcribeModel d))) := by
  unfold transcribe
  rw [if_neg hlen, if_neg (by omega)]

/-- The body of the Answer Pipeline either leaves the state alone or only
records `last_question`. -/
theorem gss_core_state (ex : Externals) (s : SessionState) (q : String) :
    (generate_and_send_core ex s q).1 = s ∨
      (generate_and_send_core ex s q).1 = { s with last_question := q } := by
  unfold generate_and_send_core
  dsimp only
  repeat' split
  all_goals first
    | exact Or.inl rfl
    | exact Or.inr rfl

/-- `generate_and_send_answer` either leaves the state alone or only
records `last_question`. -/
theorem gss_state (ex : Externals) (s : SessionState) (q : String) :
    (generate_and_send_answer ex s q).1 = s ∨
      (generate_and_send_answer ex s q).1 = { s with last_question := q } := by
  have h := gss_core_state ex s q
  unfold generate_and_send_answer
  rcases hc : generate_and_send_core ex s q with ⟨s', tr, r⟩
  rw [hc] at h
  simpa using h

/-- The Answer Pipeline trace opens with the `answerPipeline` marker
carrying the question it was invoked with. -/
theorem gss_head (ex : Externals) (s : SessionState) (q : String) :
    ∃ tl, (generate_and_send_answer ex s q).2.1 = Event.answerPipeline q :: tl := by
  unfold generate_and_send_answer
  rcases generate_and_send_core ex s q with ⟨s', tr, r⟩
  exact ⟨tr, rfl⟩

/-- The Answer Pipeline never changes the persisted session id. -/
theorem gss_db (ex : Externals) (s : SessionState) (q : String) :
    (generate_and_send_answer ex s q).1.db_session_id = s.db_session_id := by
  rcases gss_state ex s q with h | h <;> rw [h]

/-- The Answer Pipeline never changes the transcript buffer. -/
theorem gss_tb (ex : Externals) (s : SessionState) (q : String) :
    (generate_and_send_answer ex s q).1.transcription_buffer = s.transcription_buffer := by
  rcases gss_state ex s q with h | h <;> rw [h]

/-- `process_audio_buffer` never changes the persisted session id. -/
theorem process_preserves_db (ex : Externals) (s : SessionState) :
    (process_audio_buffer ex s).1.db_session_id = s.db_session_id := by
  by_cases hp : s.is_processing
  · rw [process_busy_skip ex s hp]
  · unfold process_audio_buffer
    rw [if_neg (by simp [hp])]
    dsimp only
    repeat' split
    all_goals try rfl
    all_goals rename_i s5 ev3 u hgss
    all_goals
      (have hdb := congrArg (fun t => t.1.db_session_id) hgss
       dsimp only at hdb
       rw [gss_db] at hdb
       dsimp only at hdb ⊢
       exact hdb.symm)

/-! ## Claim theorems -/

/-- C1: at most one transcription call is in flight per session at any
instant.  In every state reachable under arbitrarily interleaved
`audio_chunk` arrivals and `process_audio_buffer` invocations, at most one
invocation is inside the external `transcribe` call; the `skip` transition
of `PStep` is the embedded fact that an invocation entering while the flag
is set returns at once without draining the buffer or calling
`transcribe`. -/
theorem transcribe_never_reentrant {s : PState} (hr : PReachable s) :
    s.nTrans ≤ 1 := by
  have h := pstep_invariant hr
  unfold PInv at h
  rcases hf : s.flag <;> rw [hf] at h <;> simp at h <;> omega

/-- Witness for C1 at a concrete reachable state: one invocation has
arrived and entered the transcribe region. -/
theorem transcribe_never_reentrant_witness :
    PReachable ⟨true, 0, 0, 1, 0⟩ ∧ (⟨true, 0, 0, 1, 0⟩ : PState).nTrans ≤ 1 := by
  have h1 : PStep PState.init ⟨false, 0, 1, 0, 0⟩ := PStep.arrive PState.init
  have h2 : PStep ⟨false, 0, 1, 0, 0⟩ ⟨true, 0, 0, 1, 0⟩ :=
    PStep.enter ⟨false, 0, 1, 0, 0⟩ (by decide) rfl
  have hr : PReachable ⟨true, 0, 0, 1, 0⟩ :=
    Relation.ReflTransGen.tail (Relation.ReflTransGen.single h1) h2
  exact ⟨hr, transcribe_never_reentrant hr⟩

/-- C8 counterexample: `process_audio_buffer` entered on the early-return
path (guard already set by an in-flight invocation) exits with
`is_processing` still `true` — the guard is not reset to false on this exit
path, so the claim as stated (reset on every exit path, early return
included) fails. -/
theorem process_early_return_keeps_flag :
    (process_audio_buffer ex0 ⟨none, [], "", "", true⟩).1.is_processing = true := rfl

/-- C8 amended: on the early-return exit the invocation never acquired the
guard and leaves state and trace untouched; on every exit path of an
invocation that did acquire the guard — normal completion, or an exception
raised by the transcription call or by event emission — the guard is reset
to false, and the exception is swallowed and logged (`process_audio_buffer`
returns normally rather than raising, as its embedding without an error
component records). -/
theorem process_guard_discipline (ex : Externals) (s : SessionState) :
    (s.is_processing = true → process_audio_buffer ex s = (s, [])) ∧
    (s.is_processing = false → (process_audio_buffer ex s).1.is_processing = false) ∧
    (∀ e, s.is_processing = false → (transcribe ex s.audio_buffer).2 = .error e →
      Event.logError ("Error processing audio: " ++ e) ∈ (process_audio_buffer ex s).2) := by
  refine ⟨process_busy_skip ex s, process_flag_clear ex s, ?_⟩
  intro e hp htr
  unfold process_audio_buffer
  rw [if_neg (by simp [hp])]
  dsimp only
  rcases h2 : transcribe ex s.audio_buffer with ⟨tev, tres⟩
  rw [h2] at htr
  dsimp only at htr
  subst htr
  simp [h2]

/-- Witness for C8's amended theorem: the early return at a busy state, the
flag reset at an idle state, and the swallowed-and-logged exception from a
transcription call on an odd-length (1001-byte) buffer, where
`np.frombuffer` raises. -/
theorem process_guard_discipline_witness :
    process_audio_buffer ex0 ⟨none, [], "hello", "", true⟩ = (⟨none, [], "hello", "", true⟩, []) ∧
    (process_audio_buffer ex0 ⟨none, [], "", "", false⟩).1.is_processing = false ∧
    Event.logError
        ("Error processing audio: " ++ "frombuffer: buffer size must be a multiple of element size")
      ∈ (process_audio_buffer ex0 ⟨none, List.replicate 1001 0, "", "", false⟩).2 := by
  refine ⟨(process_guard_discipline ex0 _).1 rfl, (process_guard_discipline ex0 _).2.1 rfl,
    (process_guard_discipline ex0 _).2.2 _ rfl ?_⟩
  show (transcribe ex0 (List.replicate 1001 0)).2 = _
  unfold transcribe
  rw [if_neg (by rw [List.length_replicate]; decide),
    if_pos (by rw [List.length_replicate]; decide)]

/-- C9: audio input shorter than 1000 bytes makes
`TranscriptionService.transcribe` return `("", 0.0)` without entering the
underlying speech-to-text model. -/
theorem transcribe_short_input (ex : Externals) (audio_data : List Nat)
    (h : audio_data.length < 1000) :
    transcribe ex audio_data =
      ([.transcribeCall audio_data, .transcribeReturn "" 0], .ok ("", 0)) ∧
    ∀ n, Event.modelInvoke n ∉ (transcribe ex audio_data).1 := by
  unfold transcribe
  rw [if_pos h]
  exact ⟨rfl, by intro n hn; simp at hn⟩

/-- Witness for C9 on a concrete 3-byte input. -/
theorem transcribe_short_input_witness :
    [(0:Nat), 1, 2].length < 1000 ∧
    transcribe ex0 [0, 1, 2] =
      ([.transcribeCall [0, 1, 2], .transcribeReturn "" 0], .ok ("", 0)) ∧
    ∀ n, Event.modelInvoke n ∉ (transcribe ex0 [0, 1, 2]).1 :=
  ⟨by decide, transcribe_short_input ex0 [0, 1, 2] (by decide)⟩

/-- The clamp in `_transcribe_sync` keeps every confidence it produces in
`[0, 1]`; the error branch returns 0. -/
theorem transcribe_sync_bounds (r : Except String (List (String × ℚ))) :
    0 ≤ (transcribe_sync r).2 ∧ (transcribe_sync r).2 ≤ 1 := by
  unfold transcribe_sync
  rcases r with e | segs
  · constructor <;> norm_num
  · dsimp only
    constructor
    · exact le_min (by norm_num) (le_max_left 0 _)
    · exact min_le_left 1 _

/-- C10: every confidence returned by `TranscriptionService.transcribe`
lies in `[0, 1]`: the short-input branch returns 0, the model-error branch
returns 0, and the success branch is clamped by
`min(1.0, max(0.0, (avg + 1) / 1))`. -/
theorem transcribe_confidence_in_unit_interval (ex : Externals)
    (audio_data : List Nat) (t : String) (c : ℚ)
    (h : (transcribe ex audio_data).2 = .ok (t, c)) :
    0 ≤ c ∧ c ≤ 1 := by
  unfold transcribe at h
  split at h
  · simp only [Except.ok.injEq, Prod.mk.injEq] at h
    rw [← h.2]
    norm_num
  · split at h
    · simp at h
    · dsimp only at h
      simp only [Except.ok.injEq] at h
      have hb := transcribe_sync_bounds (ex.transcribeModel audio_data)
      rw [h] at hb
      simpa using hb

/-- Witness for C10 at the empty input, whose confidence is 0. -/
theorem transcribe_confidence_in_unit_interval_witness :
    0 ≤ (0 : ℚ) ∧ (0 : ℚ) ≤ 1 :=
  transcribe_confidence_in_unit_interval ex0 [] "" 0 rfl

/-- C4 counterexample: on an empty drained block the pipeline does NOT
return before calling the transcription collaborator — the call
`transcribeCall []` appears in the run's trace (the sub-1000-byte guard
inside the service, not an early return in the pipeline, is what keeps the
model from running). -/
theorem process_empty_block_calls_transcribe :
    Event.transcribeCall [] ∈ (process_audio_buffer ex0 ⟨none, [], "", "", false⟩).2 := by
  decide

/-- C4 amended: with the guard clear and an empty drained block,
`process_audio_buffer` calls `transcribe`, which returns `("", 0.0)` from
its length guard without invoking the model; no client event is emitted,
the transcript buffer and the rest of the state are unchanged, and the flag
ends clear — the run is exactly the two service events with the state
returned as it was. -/
theorem process_empty_block (ex : Externals) (s : SessionState)
    (hp : s.is_processing = false) (hb : s.audio_buffer = []) :
    process_audio_buffer ex s = (s, [.transcribeCall [], .transcribeReturn "" 0]) ∧
    (∀ n, Event.modelInvoke n ∉ (process_audio_buffer ex s).2) ∧
    Event.transcribeCall [] ∈ (process_audio_buffer ex s).2 := by
  have heq : process_audio_buffer ex s = (s, [.transcribeCall [], .transcribeReturn "" 0]) := by
    cases s with
    | mk d b tb lq ip =>
      dsimp only at hp hb
      subst hp
      subst hb
      unfold process_audio_buffer
      rw [if_neg (by simp)]
      dsimp only
      rw [show transcribe ex [] = ([.transcribeCall [], .transcribeReturn "" 0], .ok ("", 0))
        from rfl]
      dsimp only
      rw [if_neg (by decide)]
  refine ⟨heq, ?_, ?_⟩
  · rw [heq]
    intro n hn
    simp at hn
  · rw [heq]
    simp

/-- Witness for C4's amended theorem at a concrete idle state with a
nonempty transcript and a persisted id, which the run leaves untouched. -/
theorem process_empty_block_witness :
    process_audio_buffer ex0 ⟨some 7, [], "pending words", "q", false⟩ =
      (⟨some 7, [], "pending words", "q", false⟩,
       [.transcribeCall [], .transcribeReturn "" 0]) :=
  (process_empty_block ex0 ⟨some 7, [], "pending words", "q", false⟩ rfl rfl).1

/-- C2: when a question boundary fires during `process_audio_buffer` (the
updated transcript satisfies `is_complete_question`), the transcript buffer
is empty immediately afterwards, the `transcription` event sent with
`is_final = true` carries exactly the buffer content from just before the
clearing, and the Answer Pipeline is invoked with that same text. -/
theorem process_question_boundary (ex : Externals) (s : SessionState)
    (tev : List Event) (text : String) (conf : ℚ)
    (hemit : ∀ e, ex.emitFail e = false)
    (hp : s.is_processing = false)
    (htr : transcribe ex s.audio_buffer = (tev, .ok (text, conf)))
    (hne : pyStripS text ≠ "")
    (hq : is_complete_question (pyStripS (s.transcription_buffer ++ " " ++ text)) = true) :
    (process_audio_buffer ex s).1.transcription_buffer = "" ∧
    Event.transcriptionEvt (pyStripS (s.transcription_buffer ++ " " ++ text)) none true none
      ∈ (process_audio_buffer ex s).2 ∧
    Event.answerPipeline (pyStripS (s.transcription_buffer ++ " " ++ text))
      ∈ (process_audio_buffer ex s).2 := by
  have hsm : ∀ e, send_message ex e = ([e], .ok ()) := by
    intro e
    simp [send_message, hemit]
  unfold process_audio_buffer
  rw [if_neg (by simp [hp])]
  dsimp only
  rw [htr]
  dsimp only
  rw [if_pos hne, hsm]
  dsimp only
  rw [if_pos hq, hsm]
  dsimp only
  rcases hg : generate_and_send_answer ex
      { db_session_id := s.db_session_id, audio_buffer := [], transcription_buffer := "",
        last_question := s.last_question, is_processing := true }
      (pyStripS (s.transcription_buffer ++ " " ++ text)) with ⟨s5, ev3, r3⟩
  have htb := congrArg (fun t => t.1.transcription_buffer) hg
  dsimp only at htb
  rw [gss_tb] at htb
  dsimp only at htb
  have hap := congrArg (fun t => t.2.1) hg
  dsimp only at hap
  obtain ⟨tl, htl⟩ := gss_head ex
    { db_session_id := s.db_session_id, audio_buffer := [], transcription_buffer := "",
      last_question := s.last_question, is_processing := true }
    (pyStripS (s.transcription_buffer ++ " " ++ text))
  rw [hap] at htl
  rcases r3 with e | u <;>
    (dsimp only
     refine ⟨htb.symm, ?_, ?_⟩ <;> simp [htl])

/-- With reliable sends the Answer Pipeline trace never contains a
transcription-service call. -/
theorem gss_no_transcribe (ex : Externals) (s : SessionState) (q : String)
    (hemit : ∀ e, ex.emitFail e = false) :
    transcribeCalls (generate_and_send_answer ex s q).2.1 = 0 := by
  rcases hg : ex.generateAnswer q ex.cvSummary with e1 | ⟨ans, kps⟩
  · rw [gss_err_eq ex s q e1 hemit hg]
    simp [transcribeCalls, isTranscribeCall]
  · rw [gss_ok_eq ex s q ans kps hemit hg]
    rcases hd : s.db_session_id with _ | sid
    · simp [transcribeCalls, isTranscribeCall]
    · by_cases h0 : sid = 0 <;>
        simp [h0, transcribeCalls, isTranscribeCall, List.countP_append]

/-- With reliable sends a non-skipped `process_audio_buffer` run enters the
transcription service exactly once. -/
theorem process_transcribe_count (ex : Externals) (s : SessionState)
    (hemit : ∀ e, ex.emitFail e = false) (hp : s.is_processing = false) :
    transcribeCalls (process_audio_buffer ex s).2 = 1 := by
  have hsm : ∀ e, send_message ex e = ([e], .ok ()) := by
    intro e
    simp [send_message, hemit]
  have htc := transcribe_trace_calls ex s.audio_buffer
  unfold process_audio_buffer
  rw [if_neg (by simp [hp])]
  dsimp only
  rcases htr : transcribe ex s.audio_buffer with ⟨tev, tres⟩
  rw [htr] at htc
  dsimp only at htc
  rcases tres with e | ⟨text, conf⟩
  · dsimp only
    simp [transcribeCalls, List.countP_append, isTranscribeCall] at htc ⊢
    exact htc
  · dsimp only
    by_cases hne : pyStripS text ≠ ""
    · rw [if_pos hne, hsm]
      dsimp only
      by_cases hqq : is_complete_question (pyStripS (s.transcription_buffer ++ " " ++ text)) = true
      · rw [if_pos hqq, hsm]
        dsimp only
        rcases hg : generate_and_send_answer ex
            { db_session_id := s.db_session_id, audio_buffer := [], transcription_buffer := "",
              last_question := s.last_question, is_processing := true }
            (pyStripS (s.transcription_buffer ++ " " ++ text)) with ⟨s5, ev3, r3⟩
        have hev3 := gss_no_transcribe ex
            { db_session_id := s.db_session_id, audio_buffer := [], transcription_buffer := "",
              last_question := s.last_question, is_processing := true }
            (pyStripS (s.transcription_buffer ++ " " ++ text)) hemit
        rw [hg] at hev3
        dsimp only at hev3
        rcases r3 with u | u <;>
          (dsimp only
           simp only [transcribeCalls] at htc hev3
           simp [transcribeCalls, List.countP_append, List.countP_cons, isTranscribeCall]
           omega)
      · rw [if_neg hqq]
        dsimp only
        simp [transcribeCalls, List.countP_append, isTranscribeCall] at htc ⊢
        exact htc
    · rw [if_neg hne]
      dsimp only
      exact htc

/-- C7: with reliable sends, when `generate_answer` returns normally the
`ai_response` event (question, answer text, key points, `is_complete=true`)
is emitted before any persistence, and a Q&A row is persisted exactly when
the session has a persisted id (skipped silently otherwise); when
`generate_answer` raises, an `error` event is emitted and nothing is
persisted.  (The id 0 is excluded: the SQLite store never issues it, and
Python truthiness would treat it as no session.) -/
theorem generate_answer_pipeline_contract (ex : Externals) (s : SessionState) (q : String)
    (hemit : ∀ e, ex.emitFail e = false) (hsid : s.db_session_id ≠ some 0) :
    (∀ ans kps, ex.generateAnswer q ex.cvSummary = .ok (ans, kps) →
      generate_and_send_answer ex s q =
        ({ s with last_question := q },
         [.answerPipeline q, .statusEvt "generating" (some "Generating answer..."),
          .generateCall q ex.cvSummary, .aiResponseEvt q ans kps true] ++
           (match s.db_session_id with
            | some sid => [Event.addQA sid q ans kps]
            | none => []),
         .ok ())) ∧
    (∀ e1, ex.generateAnswer q ex.cvSummary = .error e1 →
      generate_and_send_answer ex s q =
        (s, [.answerPipeline q, .statusEvt "generating" (some "Generating answer..."),
             .generateCall q ex.cvSummary, .logError ("Error generating answer: " ++ e1),
             .errorEvt ("Failed to generate answer: " ++ e1)], .ok ()) ∧
      ∀ sid q2 a2 k2, Event.addQA sid q2 a2 k2 ∉ (generate_and_send_answer ex s q).2.1) := by
  constructor
  · intro ans kps hg
    rw [gss_ok_eq ex s q ans kps hemit hg]
    rcases hd : s.db_session_id with _ | sid
    · simp [hd]
    · have hne0 : ¬ sid = 0 := by
        intro h0
        apply hsid
        rw [hd, h0]
      simp [hd, hne0]
  · intro e1 hg
    refine ⟨gss_err_eq ex s q e1 hemit hg, ?_⟩
    rw [gss_err_eq ex s q e1 hemit hg]
    intro sid q2 a2 k2 hmem
    simp at hmem

/-- Concrete externals for C7's witness: the generator succeeds. -/
def exG : Externals where
  transcribeModel := fun _ => .ok []
  generateAnswer := fun _ _ => .ok ("fine answer", ["point one"])
  cvSummary := none
  emitFail := fun _ => false
  normalize := fun b => some b

/-- Concrete externals for C7's witness: the generator raises. -/
def exGE : Externals where
  transcribeModel := fun _ => .ok []
  generateAnswer := fun _ _ => .error "boom"
  cvSummary := none
  emitFail := fun _ => false
  normalize := fun b => some b

/-- Witness for C7 at a persisted session (id 5) with a succeeding
generator, and at an unpersisted session with a raising generator. -/
theorem generate_answer_pipeline_contract_witness :
    generate_and_send_answer exG ⟨some 5, [], "", "", false⟩ "Why us?" =
      (⟨some 5, [], "", "Why us?", false⟩,
       [.answerPipeline "Why us?", .statusEvt "generating" (some "Generating answer..."),
        .generateCall "Why us?" none, .aiResponseEvt "Why us?" "fine answer" ["point one"] true,
        .addQA 5 "Why us?" "fine answer" ["point one"]],
       .ok ()) ∧
    generate_and_send_answer exGE ⟨none, [], "", "", false⟩ "Why us?" =
      (⟨none, [], "", "", false⟩,
       [.answerPipeline "Why us?", .statusEvt "generating" (some "Generating answer..."),
        .generateCall "Why us?" none, .logError ("Error generating answer: " ++ "boom"),
        .errorEvt ("Failed to generate answer: " ++ "boom")],
       .ok ()) := by
  constructor
  · have h := (generate_answer_pipeline_contract exG ⟨some 5, [], "", "", false⟩ "Why us?"
      (fun e => rfl) (by simp)).1 "fine answer" ["point one"] rfl
    simpa [exG] using h
  · have h := ((generate_answer_pipeline_contract exGE ⟨none, [], "", "", false⟩ "Why us?"
      (fun e => rfl) (by simp)).2 "boom" rfl).1
    simpa [exGE] using h

/-- Concrete externals for C2's witness: the model hears a short question. -/
def exW : Externals where
  transcribeModel := fun _ => .ok [("Is this correct?", 0)]
  generateAnswer := fun _ _ => .ok ("One answer", [])
  cvSummary := none
  emitFail := fun _ => false
  normalize := fun b => some b

/-- Concrete idle session for C2's witness: 1000 buffered bytes, empty
transcript. -/
def sW : SessionState := ⟨none, List.replicate 1000 0, "", "", false⟩

/-- Witness for C2: the model output ends in a question mark, so the
boundary fires; the buffer ends empty, the final transcription event and
the Answer Pipeline invocation both carry the question. -/
theorem process_question_boundary_witness :
    (process_audio_buffer exW sW).1.transcription_buffer = "" ∧
    Event.transcriptionEvt "Is this correct?" none true none ∈ (process_audio_buffer exW sW).2 ∧
    Event.answerPipeline "Is this correct?" ∈ (process_audio_buffer exW sW).2 := by
  have hsync : transcribe_sync (.ok [("Is this correct?", (0:ℚ))]) = ("Is this correct?", 1) := by
    unfold transcribe_sync
    dsimp only
    rw [Prod.mk.injEq]
    constructor
    · decide
    · norm_num
  have h1 := transcribe_long exW (List.replicate 1000 0)
    (by rw [List.length_replicate]; decide) (by rw [List.length_replicate])
  rw [show exW.transcribeModel (List.replicate 1000 0) = .ok [("Is this correct?", 0)] from rfl,
    hsync] at h1
  have h := process_question_boundary exW sW _ "Is this correct?" 1
    (fun e => rfl) rfl h1 (by decide) (by decide)
  have htb0 : sW.transcription_buffer = "" := rfl
  rw [htb0] at h
  have hq : pyStripS (("" : String) ++ " " ++ "Is this correct?") = "Is this correct?" := by
    decide
  rw [hq] at h
  exact h

/-- In `tr`, every persisted-session-end write is preceded by some
transcription-service return (the final pass completed first). -/
def endAfterRet (tr : List Event) : Prop :=
  ∀ i sid, tr.get? i = some (.endSessionDb sid) →
    ∃ j t c, j < i ∧ tr.get? j = some (.transcribeReturn t c)

/-- A trace headed by a full transcription-service run satisfies
`endAfterRet`: the service return sits at index 2, before any possible
session-end write. -/
theorem endAfterRet_shape (d : List Nat) (n : Nat) (t : String) (cq : ℚ)
    (rest : List Event) :
    endAfterRet (Event.transcribeCall d :: Event.modelInvoke n ::
      Event.transcribeReturn t cq :: rest) := by
  intro i sid hi
  match i with
  | 0 => simp at hi
  | 1 => simp at hi
  | 2 => simp at hi
  | (m + 3) => exact ⟨2, t, cq, by omega, rfl⟩

/-- C6: on `end_session`, a buffer above the 1000-byte noise floor gets
exactly one final transcription pass, awaited before the persisted session
is marked ended (for a well-formed even-length PCM buffer the service
return precedes the `end_session` database write); a buffer at or below the
floor gets none; and in every case the session id ends cleared (with
reliable sends; id 0, which the store never issues, excluded). -/
theorem handle_end_session_contract (ex : Externals) (s : SessionState)
    (hemit : ∀ e, ex.emitFail e = false) (hp : s.is_processing = false)
    (hsid : s.db_session_id ≠ some 0) :
    (handle_end_session ex s).1.db_session_id = none ∧
    (handle_end_session ex s).2.2 = .ok () ∧
    (s.audio_buffer.length ≤ 1000 → transcribeCalls (handle_end_session ex s).2.1 = 0) ∧
    (1000 < s.audio_buffer.length → transcribeCalls (handle_end_session ex s).2.1 = 1) ∧
    (1000 < s.audio_buffer.length → 2 ∣ s.audio_buffer.length →
      endAfterRet (handle_end_session ex s).2.1) := by
  have hsm : ∀ e, send_message ex e = ([e], .ok ()) := by
    intro e
    simp [send_message, hemit]
  by_cases h1000 : 1000 < s.audio_buffer.length
  · have hcnt := process_transcribe_count ex s hemit hp
    have hEAR : 2 ∣ s.audio_buffer.length → ∀ tail : List Event,
        endAfterRet ((process_audio_buffer ex s).2 ++ tail) := by
      intro hdvd tail
      have hm : s.audio_buffer.length % 2 = 0 := by omega
      have hpre := process_trace_prefix ex s hp
      rw [transcribe_long ex s.audio_buffer (by omega) hm] at hpre
      obtain ⟨rest2, hptr⟩ := hpre
      rw [← hptr]
      exact endAfterRet_shape s.audio_buffer (s.audio_buffer.length / 2) _ _ (rest2 ++ tail)
    unfold handle_end_session
    dsimp only
    rw [if_pos h1000, process_preserves_db]
    rcases hd : s.db_session_id with _ | sid
    · dsimp only
      refine ⟨rfl, rfl, ?_, ?_, ?_⟩
      · intro hle
        omega
      · intro _
        exact hcnt
      · intro _ hdvd
        have h := hEAR hdvd []
        simpa using h
    · have hs0 : ¬ sid = 0 := by
        intro h0
        exact hsid (by rw [hd, h0])
      dsimp only
      rw [if_neg hs0, hsm]
      dsimp only
      refine ⟨rfl, rfl, ?_, ?_, ?_⟩
      · intro hle
        omega
      · intro _
        simp only [transcribeCalls] at hcnt ⊢
        simp [List.countP_append, List.countP_cons, isTranscribeCall, hcnt]
      · intro _ hdvd
        rw [List.append_assoc]
        exact hEAR hdvd _
  · unfold handle_end_session
    dsimp only
    rw [if_neg h1000]
    dsimp only
    rcases hd : s.db_session_id with _ | sid
    · dsimp only
      exact ⟨rfl, rfl, fun _ => rfl, fun hlt => absurd hlt h1000, fun hlt _ => absurd hlt h1000⟩
    · have hs0 : ¬ sid = 0 := by
        intro h0
        exact hsid (by rw [hd, h0])
      dsimp only
      rw [if_neg hs0, hsm]
      dsimp only
      refine ⟨rfl, rfl, ?_, fun hlt => absurd hlt h1000, fun hlt _ => absurd hlt h1000⟩
      intro _
      simp [transcribeCalls, isTranscribeCall]

/-- Witness for C6: ending a session holding 1002 buffered bytes and
persisted id 3 clears the id, succeeds, and runs exactly one transcription
pass. -/
theorem handle_end_session_contract_witness :
    (handle_end_session ex0 ⟨some 3, List.replicate 1002 0, "", "", false⟩).1.db_session_id
      = none ∧
    (handle_end_session ex0 ⟨some 3, List.replicate 1002 0, "", "", false⟩).2.2 = .ok () ∧
    transcribeCalls
      (handle_end_session ex0 ⟨some 3, List.replicate 1002 0, "", "", false⟩).2.1 = 1 := by
  have h := handle_end_session_contract ex0 ⟨some 3, List.replicate 1002 0, "", "", false⟩
    (fun e => rfl) rfl (by simp)
  refine ⟨h.1, h.2.1, h.2.2.2.1 ?_⟩
  show (1000 : Nat) < (List.replicate 1002 (0:Nat)).length
  rw [List.length_replicate]
  omega

/-- Concrete externals for C3: normalization fails (raw fallback), the
model hears nothing. -/
def exN : Externals where
  transcribeModel := fun _ => .ok []
  generateAnswer := fun _ _ => .ok ("", [])
  cvSummary := none
  emitFail := fun _ => false
  normalize := fun _ => none

/-- C3 counterexample: when a chunk pushes the accumulator to the 64000
threshold, the completed external transcription call — its
`transcribeReturn` — occurs inside the handling of that very `audio_chunk`
message (events of `handle_audio_chunk`'s own run), so handling does not
complete before the transcribe call finishes, and the session's next
message cannot be received until it does: the claim as stated fails. -/
theorem handle_audio_chunk_waits :
    Event.transcribeReturn "" 1 ∈
      (handle_audio_chunk exN ⟨none, List.replicate 63000 0, "", "", false⟩
        ⟨some (List.replicate 1000 0)⟩).2 := by
  have hsync0 : transcribe_sync (Except.ok ([] : List (String × ℚ))) = ("", 1) := by
    unfold transcribe_sync
    dsimp only
    rw [Prod.mk.injEq]
    constructor
    · rfl
    · norm_num
  have hlen : (64000 : Nat) ≤ (List.replicate 63000 (0:Nat) ++ List.replicate 1000 0).length := by
    rw [List.length_append, List.length_replicate, List.length_replicate]
  unfold handle_audio_chunk
  dsimp only
  rw [show exN.normalize (List.replicate 1000 0) = none from rfl]
  dsimp only
  rw [if_pos hlen]
  have hpre := process_trace_prefix exN
    ⟨none, List.replicate 63000 0 ++ List.replicate 1000 0, "", "", false⟩ rfl
  dsimp only at hpre
  rw [transcribe_long exN (List.replicate 63000 0 ++ List.replicate 1000 0)
      (by rw [List.length_append, List.length_replicate, List.length_replicate]; omega)
      (by rw [List.length_append, List.length_replicate, List.length_replicate]),
    show exN.transcribeModel (List.replicate 63000 0 ++ List.replicate 1000 0) =
      .ok [] from rfl, hsync0] at hpre
  obtain ⟨rest2, hptr⟩ := hpre
  rw [← hptr]
  exact List.mem_append_left _
    (List.mem_cons_of_mem _ (List.mem_cons_of_mem _ (List.mem_cons_self _ _)))

/-- C3 amended: when an `audio_chunk` brings the accumulator to the 64000
threshold, `handle_audio_chunk` invokes `process_audio_buffer` and awaits
it inline: the external transcription call is entered and (for a
well-formed even-length PCM buffer) returns within the handling of that
very message, before the handler returns and the next inbound message can
be received.  Only the model inference itself is moved off the event loop
(`run_in_executor`), keeping other connections responsive. -/
theorem handle_audio_chunk_inline_transcription (ex : Externals) (s : SessionState)
    (bytes : List Nat)
    (hp : s.is_processing = false)
    (hnorm : ex.normalize bytes = none)
    (hlen : 64000 ≤ s.audio_buffer.length + bytes.length)
    (heven : (s.audio_buffer.length + bytes.length) % 2 = 0) :
    Event.transcribeCall (s.audio_buffer ++ bytes)
      ∈ (handle_audio_chunk ex s ⟨some bytes⟩).2 ∧
    Event.transcribeReturn
        (transcribe_sync (ex.transcribeModel (s.audio_buffer ++ bytes))).1
        (transcribe_sync (ex.transcribeModel (s.audio_buffer ++ bytes))).2
      ∈ (handle_audio_chunk ex s ⟨some bytes⟩).2 := by
  have hlen' : (64000 : Nat) ≤ (s.audio_buffer ++ bytes).length := by
    rw [List.length_append]
    exact hlen
  unfold handle_audio_chunk
  dsimp only
  rw [hnorm]
  dsimp only
  rw [if_pos hlen']
  have hp1 : ({ s with audio_buffer := s.audio_buffer ++ bytes } : SessionState).is_processing
      = false := hp
  have hpre := process_trace_prefix ex { s with audio_buffer := s.audio_buffer ++ bytes } hp1
  dsimp only at hpre
  rw [transcribe_long ex (s.audio_buffer ++ bytes)
      (by rw [List.length_append]; omega)
      (by rw [List.length_append]; omega)] at hpre
  obtain ⟨rest2, hptr⟩ := hpre
  rw [← hptr]
  constructor <;> simp

/-- Witness for C3's amended theorem at concrete 63000 buffered bytes plus
a 1000-byte chunk. -/
theorem handle_audio_chunk_inline_transcription_witness :
    Event.transcribeCall (List.replicate 63000 0 ++ List.replicate 1000 0) ∈
      (handle_audio_chunk exN ⟨none, List.replicate 63000 0, "", "", false⟩
        ⟨some (List.replicate 1000 0)⟩).2 ∧
    Event.transcribeReturn "" 1 ∈
      (handle_audio_chunk exN ⟨none, List.replicate 63000 0, "", "", false⟩
        ⟨some (List.replicate 1000 0)⟩).2 := by
  have hsync0 : transcribe_sync (Except.ok ([] : List (String × ℚ))) = ("", 1) := by
    unfold transcribe_sync
    dsimp only
    rw [Prod.mk.injEq]
    constructor
    · rfl
    · norm_num
  have h := handle_audio_chunk_inline_transcription exN
    ⟨none, List.replicate 63000 0, "", "", false⟩ (List.replicate 1000 0) rfl rfl
    (by rw [show ((⟨none, List.replicate 63000 0, "", "", false⟩ : SessionState)).audio_buffer =
          List.replicate 63000 0 from rfl, List.length_replicate, List.length_replicate])
    (by rw [show ((⟨none, List.replicate 63000 0, "", "", false⟩ : SessionState)).audio_buffer =
          List.replicate 63000 0 from rfl, List.length_replicate, List.length_replicate])
  dsimp only at h
  rw [show exN.transcribeModel (List.replicate 63000 0 ++ List.replicate 1000 0) =
    .ok [] from rfl, hsync0] at h
  exact h
